import Mathlib

-- Verification of the structural-comparison core of boltz_design_pipeline/structure_utils.py:
-- coordinate extraction (PDBComplexParser._extract_chain_info, parse_complex,
-- _get_complex_coords) and the alignment/scoring engine (RMSDCalculator.calculate_rmsd,
-- kabsch_align, calculate_complex_rmsd).
--
-- Coordinates are modelled as exact real 3-vectors (Fin 3 → ℝ); numpy arrays of points
-- become lists of points.  numpy's SVD is modelled as an oracle argument
-- (a function producing U, S, Vt for a 3×3 matrix) together with the predicate IsSvd3
-- stating the properties numpy guarantees for its output (orthogonal factors,
-- factorization, non-negative singular values in descending order).
-- Python exceptions become Except values.

noncomputable section

namespace StructureUtils

open Matrix

abbrev Pt := Fin 3 → ℝ

-- A residue as seen by _extract_chain_info: PDB.is_aa(residue) is the field is_aa;
-- PDB.Polypeptide.three_to_one(resname) either succeeds with a character or raises
-- KeyError, modelled by one_letter : Option Char; 'CA' in residue is hasCA, and
-- residue['CA'].get_coord() is ca.
structure Residue where
  is_aa : Bool
  one_letter : Option Char
  hasCA : Bool
  ca : Pt

structure Chain where
  id : String
  residues : List Residue

-- One step of the residue loop of _extract_chain_info (lines 111-119):
-- sequence += three_to_one(...) happens first; the CA coordinate is appended only when
-- a CA atom is present; a KeyError from three_to_one skips the residue entirely.
def extractStep (acc : List Char × List Pt) (r : Residue) : List Char × List Pt :=
  if r.is_aa then
    match r.one_letter with
    | some c => (acc.1 ++ [c], if r.hasCA then acc.2 ++ [r.ca] else acc.2)
    | none => acc
  else acc

def extractResidues (rs : List Residue) : List Char × List Pt :=
  rs.foldl extractStep ([], [])

-- _extract_chain_info: structure[0][chain_id] raises KeyError (re-raised as the
-- chain-not-found ValueError) when there is no first model or the first model has no
-- chain with the requested id; otherwise the residues of that chain are scanned.
def extractChainInfo (s : List (List Chain)) (chain_id : String) :
    Except String (List Char × List Pt) :=
  match s with
  | [] => .error ("Chain " ++ chain_id ++ " not found in structure")
  | m :: _ =>
    match m.find? (fun c => c.id == chain_id) with
    | some c => .ok (extractResidues c.residues)
    | none => .error ("Chain " ++ chain_id ++ " not found in structure")

-- True exactly when the first structural model contains the requested chain id.
def chainPresent (s : List (List Chain)) (chain_id : String) : Bool :=
  match s with
  | [] => false
  | m :: _ => m.any (fun c => c.id == chain_id)

structure ComplexInfo where
  target_chain_id : String
  binder_chain_id : String
  target_sequence : List Char
  binder_sequence : List Char
  target_coords : List Pt
  binder_coords : List Pt
  complex_coords : List Pt
  pdb_path : String

-- _get_complex_coords: extract each requested chain in order and concatenate the
-- coordinates in the caller-specified chain order; a chain-not-found error raised
-- while looping propagates.
def getComplexCoords (s : List (List Chain)) : List String → Except String (List Pt)
  | [] => .ok []
  | cid :: rest => do
    let info ← extractChainInfo s cid
    let tail ← getComplexCoords s rest
    pure (info.2 ++ tail)

-- parse_complex (lines 51-71), on an already-parsed structure.
def parse_complex (s : List (List Chain)) (pdb_path : String)
    (target_chain binder_chain : String) : Except String ComplexInfo := do
  let (target_seq, target_coords) ← extractChainInfo s target_chain
  let (binder_seq, binder_coords) ← extractChainInfo s binder_chain
  let complex_coords ← getComplexCoords s [target_chain, binder_chain]
  pure ⟨target_chain, binder_chain, target_seq, binder_seq,
        target_coords, binder_coords, complex_coords, pdb_path⟩

-- ### RMSDCalculator ###

-- Sum over matched point pairs of the squared distance: sum((c1-c2)**2, axis=1).
def sqSum (a b : List Pt) : ℝ :=
  (List.zipWith (fun p q => (p - q) ⬝ᵥ (p - q)) a b).sum

-- sqrt(mean(...)): the common RMSD formula of calculate_rmsd and kabsch_align.
def rmsdVal (a b : List Pt) : ℝ :=
  Real.sqrt (sqSum a b / a.length)

-- Sum of squared norms of a point list (used to expand sqSum).
def sqNormSum (a : List Pt) : ℝ := (a.map (fun p => p ⬝ᵥ p)).sum

-- Sum of pairwise dot products (used to expand sqSum).
def pairDotSum (a b : List Pt) : ℝ := (List.zipWith (fun p q => p ⬝ᵥ q) a b).sum

-- The ValueError message of the length checks (lines 138 and 159).
def lengthMismatchMsg : String := "Coordinate arrays must have same length"

-- The LinAlgError numpy raises when kabsch_align runs on two empty coordinate
-- arrays: the covariance coords1_centered.T @ coords2_centered degenerates to a
-- 0-dimensional array and np.linalg.svd refuses it.
def linAlgErrorMsg : String :=
  "0-dimensional array given. Array must be at least two-dimensional"

-- calculate_rmsd (lines 134-139).
def calculate_rmsd (coords1 coords2 : List Pt) : Except String ℝ :=
  if coords1.length ≠ coords2.length then
    .error lengthMismatchMsg
  else
    .ok (rmsdVal coords1 coords2)

-- np.mean(coords, axis=0)
def centroid (xs : List Pt) : Pt := ((xs.length : ℝ))⁻¹ • xs.sum

-- H = coords1_centered.T @ coords2_centered, built from already-centered lists.
def crossCov (c1 c2 : List Pt) : Matrix (Fin 3) (Fin 3) ℝ :=
  (List.zipWith Matrix.vecMulVec c1 c2).sum

-- The covariance matrix kabsch_align feeds to the SVD, from the raw inputs.
def covH (a b : List Pt) : Matrix (Fin 3) (Fin 3) ℝ :=
  crossCov (a.map (fun p => p - centroid a)) (b.map (fun p => p - centroid b))

-- Output of np.linalg.svd on a 3×3 matrix.
structure Svd3 where
  U : Matrix (Fin 3) (Fin 3) ℝ
  S : Fin 3 → ℝ
  Vt : Matrix (Fin 3) (Fin 3) ℝ

-- What numpy guarantees for U, S, Vt = np.linalg.svd(H): orthogonal factors,
-- H = U @ diag(S) @ Vt, and singular values non-negative in descending order.
def IsSvd3 (H : Matrix (Fin 3) (Fin 3) ℝ) (f : Svd3) : Prop :=
  f.Uᵀ * f.U = 1 ∧ f.Vtᵀ * f.Vt = 1 ∧
    H = f.U * Matrix.diagonal f.S * f.Vt ∧
    0 ≤ f.S 2 ∧ f.S 2 ≤ f.S 1 ∧ f.S 1 ≤ f.S 0

-- Lines 174-180: R = Vt.T @ U.T; if det(R) < 0, the last row of Vt is sign-flipped
-- and R recomputed.
def kabschRot (U Vt : Matrix (Fin 3) (Fin 3) ℝ) : Matrix (Fin 3) (Fin 3) ℝ :=
  if (Vtᵀ * Uᵀ).det < 0 then (Vt.updateRow 2 (-(Vt 2)))ᵀ * Uᵀ else Vtᵀ * Uᵀ

-- The aligned coordinates kabsch_align produces: (coords1_centered @ R.T) + centroid2.
def alignedCoords (svd : Matrix (Fin 3) (Fin 3) ℝ → Svd3) (coords1 coords2 : List Pt) :
    List Pt :=
  let f := svd (covH coords1 coords2)
  let R := kabschRot f.U f.Vt
  (coords1.map (fun p => p - centroid coords1)).map (fun p => R *ᵥ p + centroid coords2)

-- kabsch_align (lines 142-188), with the SVD routine passed as an oracle.  On two
-- empty arrays of equal length the source reaches np.linalg.svd with a
-- 0-dimensional covariance matrix, which raises LinAlgError; that is the second
-- error branch.  On non-empty input the covariance is a true 3×3 matrix and the
-- SVD succeeds.
def kabsch_align (svd : Matrix (Fin 3) (Fin 3) ℝ → Svd3) (coords1 coords2 : List Pt) :
    Except String (List Pt × ℝ) :=
  if coords1.length ≠ coords2.length then
    .error lengthMismatchMsg
  else if coords1.length = 0 then
    .error linAlgErrorMsg
  else
    .ok (alignedCoords svd coords1 coords2,
         rmsdVal (alignedCoords svd coords1 coords2) coords2)

structure RmsdMetrics where
  complex_rmsd : ℝ
  complex_rmsd_aligned : ℝ
  target_rmsd : ℝ
  target_rmsd_aligned : ℝ
  binder_rmsd : ℝ
  binder_rmsd_aligned : ℝ

def allNegMetrics : RmsdMetrics := ⟨-1, -1, -1, -1, -1, -1⟩

-- The per-sub-scope block of the exact-length case (lines 234-247): aligned and
-- unaligned RMSD when the predicted sub-scope has at least 3 points, else sentinels.
def subScore (svd : Matrix (Fin 3) (Fin 3) ℝ → Svd3) (predPart refPart : List Pt) :
    Except String (ℝ × ℝ) :=
  if 3 ≤ predPart.length then do
    let (_, ra) ← kabsch_align svd predPart refPart
    let ru ← calculate_rmsd predPart refPart
    pure (ru, ra)
  else pure (-1, -1)

-- calculate_complex_rmsd (lines 190-256) after the predicted coordinates have been
-- extracted from the CIF file.
def calculate_complex_rmsd (svd : Matrix (Fin 3) (Fin 3) ℝ → Svd3)
    (pred_coords : List Pt) (ref_complex : ComplexInfo) : Except String RmsdMetrics :=
  let n_target := ref_complex.target_coords.length
  let n_binder := ref_complex.binder_coords.length
  if pred_coords.length ≠ n_target + n_binder then
    let min_complex_len := min pred_coords.length ref_complex.complex_coords.length
    if min_complex_len < 3 then
      .ok allNegMetrics
    else do
      let (_, complex_rmsd_aligned) ←
        kabsch_align svd (pred_coords.take min_complex_len)
          (ref_complex.complex_coords.take min_complex_len)
      let complex_rmsd_unaligned ←
        calculate_rmsd (pred_coords.take min_complex_len)
          (ref_complex.complex_coords.take min_complex_len)
      pure ⟨complex_rmsd_unaligned, complex_rmsd_aligned, -1, -1, -1, -1⟩
  else do
    let (_, complex_rmsd_aligned) ← kabsch_align svd pred_coords ref_complex.complex_coords
    let complex_rmsd_unaligned ← calculate_rmsd pred_coords ref_complex.complex_coords
    let (target_rmsd_unaligned, target_rmsd_aligned) ←
      subScore svd (pred_coords.take n_target) ref_complex.target_coords
    let (binder_rmsd_unaligned, binder_rmsd_aligned) ←
      subScore svd (pred_coords.drop n_target) ref_complex.binder_coords
    pure ⟨complex_rmsd_unaligned, complex_rmsd_aligned, target_rmsd_unaligned,
          target_rmsd_aligned, binder_rmsd_unaligned, binder_rmsd_aligned⟩

-- ### Concrete fixtures used by witnesses and counterexamples ###

def resM : Residue := ⟨true, some 'M', true, 0⟩

def resNoCA : Residue := ⟨true, some 'M', false, 0⟩

def ptX : Pt := ![1, 0, 0]

def ptNegX : Pt := ![-1, 0, 0]

def structA : List (List Chain) :=
  [[⟨"A", [⟨true, some 'M', true, ptX⟩]⟩, ⟨"B", [⟨true, some 'M', true, ptNegX⟩]⟩]]

def refA : ComplexInfo :=
  ⟨"A", "B", ['M'], ['M'], [ptX], [ptNegX], [ptX, ptNegX], "ref.pdb"⟩

def refB : ComplexInfo := ⟨"A", "B", ['M'], [], [ptX], [], [ptX], "ref.pdb"⟩

def structEmpty : List (List Chain) := [[⟨"A", []⟩, ⟨"B", []⟩]]

def refEmpty : ComplexInfo := ⟨"A", "B", [], [], [], [], [], "ref.pdb"⟩

def svdTriv : Matrix (Fin 3) (Fin 3) ℝ → Svd3 := fun _ => ⟨1, ![2, 0, 0], 1⟩

def ptsW : List Pt := [ptX, ptNegX]

-- ### Lemmas on coordinate extraction ###

lemma foldl_extractStep_fst_length (rs : List Residue) :
    ∀ acc : List Char × List Pt,
      (rs.foldl extractStep acc).1.length
        = acc.1.length + rs.countP (fun r => r.is_aa && r.one_letter.isSome) := by
  induction rs with
  | nil => intro acc; simp
  | cons r rs ih =>
    intro acc
    rw [List.foldl_cons, ih, List.countP_cons]
    unfold extractStep
    rcases haa : r.is_aa with _ | _
    · simp [haa]
    · rcases hol : r.one_letter with _ | c
      · simp [haa, hol]
      · simp only [haa, hol, if_true, Option.isSome_some, Bool.and_true,
          List.length_append, List.length_singleton]
        omega

lemma foldl_extractStep_snd_length (rs : List Residue) :
    ∀ acc : List Char × List Pt,
      (rs.foldl extractStep acc).2.length
        = acc.2.length + rs.countP (fun r => r.is_aa && r.one_letter.isSome && r.hasCA) := by
  induction rs with
  | nil => intro acc; simp
  | cons r rs ih =>
    intro acc
    rw [List.foldl_cons, ih, List.countP_cons]
    unfold extractStep
    rcases haa : r.is_aa with _ | _
    · simp [haa]
    · rcases hol : r.one_letter with _ | c
      · simp [haa, hol]
      · rcases hca : r.hasCA with _ | _
        · simp [haa, hol, hca]
        · simp only [haa, hol, hca, if_true, Option.isSome_some, Bool.and_true,
            List.length_append, List.length_singleton]
          omega

lemma extractResidues_fst_length (rs : List Residue) :
    (extractResidues rs).1.length
      = rs.countP (fun r => r.is_aa && r.one_letter.isSome) := by
  have h := foldl_extractStep_fst_length rs ([], [])
  simpa [extractResidues] using h

lemma extractResidues_snd_length (rs : List Residue) :
    (extractResidues rs).2.length
      = rs.countP (fun r => r.is_aa && r.one_letter.isSome && r.hasCA) := by
  have h := foldl_extractStep_snd_length rs ([], [])
  simpa [extractResidues] using h

-- ### Claim theorems: extraction (C1, C8, C9) and primitives (C7) ###

/-- C1 (amended): for every residue list, extraction contributes a sequence entry
exactly for each standard amino acid with a resolvable one-letter code, and a
coordinate entry exactly for each such residue that additionally has a resolvable
alpha-carbon; hence `len(coordinates) ≤ len(sequence)`, with equality whenever every
coded standard residue has an alpha-carbon — but not in general, so
`len(sequence) == len(coordinates)` is NOT an invariant of the code. -/
theorem claim_C1_extraction_counts (rs : List Residue) :
    (extractResidues rs).1.length
        = rs.countP (fun r => r.is_aa && r.one_letter.isSome) ∧
    (extractResidues rs).2.length
        = rs.countP (fun r => r.is_aa && r.one_letter.isSome && r.hasCA) ∧
    (extractResidues rs).2.length ≤ (extractResidues rs).1.length ∧
    ((∀ r ∈ rs, r.is_aa = true → r.one_letter.isSome = true → r.hasCA = true) →
      (extractResidues rs).1.length = (extractResidues rs).2.length) := by
  refine ⟨extractResidues_fst_length rs, extractResidues_snd_length rs, ?_, ?_⟩
  · rw [extractResidues_fst_length, extractResidues_snd_length]
    exact List.countP_mono_left (fun r _ h => by
      simp only [Bool.and_eq_true] at h ⊢
      exact h.1)
  · intro hca
    rw [extractResidues_fst_length, extractResidues_snd_length]
    apply List.countP_congr
    intro r hr
    rcases haa : r.is_aa with _ | _
    · simp [haa]
    · rcases hol : r.one_letter with _ | c
      · simp [haa, hol]
      · simp [haa, hol, hca r hr (by simp [haa]) (by simp [hol])]

/-- C1 counterexample: a standard residue with a resolvable one-letter code but no
alpha-carbon contributes to the sequence but not to the coordinates, so the claimed
invariant `len(sequence) == len(coordinates)` fails. -/
theorem claim_C1_counterexample :
    (extractResidues [resNoCA]).1.length = 1 ∧
    (extractResidues [resNoCA]).2.length = 0 ∧
    (extractResidues [resNoCA]).1.length ≠ (extractResidues [resNoCA]).2.length := by
  refine ⟨rfl, rfl, by decide⟩

/-- C1 witness: on a chain whose only residue is a coded standard amino acid with an
alpha-carbon, the two lengths agree. -/
theorem claim_C1_witness :
    (extractResidues [resM]).1.length = (extractResidues [resM]).2.length :=
  (claim_C1_extraction_counts [resM]).2.2.2 (by
    intro r hr h1 h2
    rcases List.mem_singleton.mp hr with rfl
    rfl)

-- ### Branch-evaluation lemmas for the scoring engine ###

lemma calculate_rmsd_ok (a b : List Pt) (h : a.length = b.length) :
    calculate_rmsd a b = .ok (rmsdVal a b) := by
  simp [calculate_rmsd, h]

lemma kabsch_align_ok (svd : Matrix (Fin 3) (Fin 3) ℝ → Svd3) (a b : List Pt)
    (h : a.length = b.length) (hne : a.length ≠ 0) :
    kabsch_align svd a b
      = .ok (alignedCoords svd a b, rmsdVal (alignedCoords svd a b) b) := by
  unfold kabsch_align
  rw [if_neg (by omega), if_neg hne]

lemma kabsch_align_empty (svd : Matrix (Fin 3) (Fin 3) ℝ → Svd3) (a b : List Pt)
    (ha : a.length = 0) (hb : b.length = 0) :
    kabsch_align svd a b = .error linAlgErrorMsg := by
  unfold kabsch_align
  rw [if_neg (by omega), if_pos ha]

lemma subScore_eq (svd : Matrix (Fin 3) (Fin 3) ℝ → Svd3) (p q : List Pt)
    (h : p.length = q.length) :
    subScore svd p q
      = .ok (if 3 ≤ p.length then (rmsdVal p q, rmsdVal (alignedCoords svd p q) q)
             else (-1, -1)) := by
  unfold subScore
  split
  · rename_i h3
    rw [kabsch_align_ok svd p q h (by omega), calculate_rmsd_ok p q h]
    simp_all [Bind.bind, Except.bind, Pure.pure, Except.pure]
  · simp_all [Pure.pure, Except.pure]

lemma calculate_complex_rmsd_mismatch_small (svd : Matrix (Fin 3) (Fin 3) ℝ → Svd3)
    (pred : List Pt) (ref : ComplexInfo)
    (hmis : pred.length ≠ ref.target_coords.length + ref.binder_coords.length)
    (hsmall : min pred.length ref.complex_coords.length < 3) :
    calculate_complex_rmsd svd pred ref = .ok allNegMetrics := by
  unfold calculate_complex_rmsd
  rw [if_pos hmis, if_pos hsmall]

lemma calculate_complex_rmsd_mismatch_big (svd : Matrix (Fin 3) (Fin 3) ℝ → Svd3)
    (pred : List Pt) (ref : ComplexInfo)
    (hmis : pred.length ≠ ref.target_coords.length + ref.binder_coords.length)
    (hbig : 3 ≤ min pred.length ref.complex_coords.length) :
    calculate_complex_rmsd svd pred ref = .ok
      ⟨rmsdVal (pred.take (min pred.length ref.complex_coords.length))
          (ref.complex_coords.take (min pred.length ref.complex_coords.length)),
        rmsdVal
          (alignedCoords svd (pred.take (min pred.length ref.complex_coords.length))
            (ref.complex_coords.take (min pred.length ref.complex_coords.length)))
          (ref.complex_coords.take (min pred.length ref.complex_coords.length)),
        -1, -1, -1, -1⟩ := by
  have hlen : (pred.take (min pred.length ref.complex_coords.length)).length
      = (ref.complex_coords.take (min pred.length ref.complex_coords.length)).length := by
    rw [List.length_take, List.length_take]
    omega
  have hne : (pred.take (min pred.length ref.complex_coords.length)).length ≠ 0 := by
    rw [List.length_take]
    omega
  unfold calculate_complex_rmsd
  rw [if_pos hmis, if_neg (by omega)]
  rw [kabsch_align_ok svd _ _ hlen hne, calculate_rmsd_ok _ _ hlen]
  simp [Bind.bind, Except.bind, Pure.pure, Except.pure]

lemma calculate_complex_rmsd_full (svd : Matrix (Fin 3) (Fin 3) ℝ → Svd3)
    (pred : List Pt) (ref : ComplexInfo)
    (heq : pred.length = ref.target_coords.length + ref.binder_coords.length)
    (hwf : ref.complex_coords.length
      = ref.target_coords.length + ref.binder_coords.length)
    (hne0 : ref.target_coords.length + ref.binder_coords.length ≠ 0) :
    calculate_complex_rmsd svd pred ref = .ok
      ⟨rmsdVal pred ref.complex_coords,
        rmsdVal (alignedCoords svd pred ref.complex_coords) ref.complex_coords,
        (if 3 ≤ ref.target_coords.length then
          rmsdVal (pred.take ref.target_coords.length) ref.target_coords else -1),
        (if 3 ≤ ref.target_coords.length then
          rmsdVal (alignedCoords svd (pred.take ref.target_coords.length)
            ref.target_coords) ref.target_coords else -1),
        (if 3 ≤ ref.binder_coords.length then
          rmsdVal (pred.drop ref.target_coords.length) ref.binder_coords else -1),
        (if 3 ≤ ref.binder_coords.length then
          rmsdVal (alignedCoords svd (pred.drop ref.target_coords.length)
            ref.binder_coords) ref.binder_coords else -1)⟩ := by
  have hcc : pred.length = ref.complex_coords.length := by omega
  have htake : (pred.take ref.target_coords.length).length
      = ref.target_coords.length := by
    rw [List.length_take]; omega
  have hdrop : (pred.drop ref.target_coords.length).length
      = ref.binder_coords.length := by
    rw [List.length_drop]; omega
  unfold calculate_complex_rmsd
  rw [if_neg (by omega)]
  rw [kabsch_align_ok svd _ _ hcc (by omega), calculate_rmsd_ok _ _ hcc,
    subScore_eq svd _ _ htake, subScore_eq svd _ _ hdrop, htake, hdrop]
  simp only [Bind.bind, Except.bind, Pure.pure, Except.pure]
  split <;> split <;> rfl

-- The doubly-degenerate case the source does NOT absorb: an empty predicted array
-- against an empty reference complex takes the exact-length branch and the SVD of
-- the 0-dimensional covariance raises.
lemma calculate_complex_rmsd_empty_error (svd : Matrix (Fin 3) (Fin 3) ℝ → Svd3)
    (pred : List Pt) (ref : ComplexInfo)
    (h0 : pred.length = 0)
    (hcc : ref.complex_coords.length = 0)
    (hnb : ref.target_coords.length + ref.binder_coords.length = 0) :
    calculate_complex_rmsd svd pred ref = .error linAlgErrorMsg := by
  unfold calculate_complex_rmsd
  rw [if_neg (by omega)]
  rw [kabsch_align_empty svd _ _ h0 hcc]
  simp [Bind.bind, Except.bind]

-- ### Orthogonality and determinant facts about the Kabsch rotation ###

lemma orth_mul_orth {A B : Matrix (Fin 3) (Fin 3) ℝ}
    (hA : Aᵀ * A = 1) (hB : Bᵀ * B = 1) : (A * B)ᵀ * (A * B) = 1 := by
  rw [Matrix.transpose_mul, Matrix.mul_assoc, ← Matrix.mul_assoc Aᵀ A B, hA,
    Matrix.one_mul, hB]

lemma det_pm_of_orth {A : Matrix (Fin 3) (Fin 3) ℝ} (h : Aᵀ * A = 1) :
    A.det = 1 ∨ A.det = -1 := by
  have h1 : A.det * A.det = 1 := by
    have := congrArg Matrix.det h
    rwa [Matrix.det_mul, Matrix.det_transpose, Matrix.det_one] at this
  exact mul_self_eq_one_iff.mp h1

-- Vt[-1, :] *= -1 is left-multiplication by diag(1, 1, -1).
lemma updateRow_flip (Vt : Matrix (Fin 3) (Fin 3) ℝ) :
    Vt.updateRow 2 (-(Vt 2)) = Matrix.diagonal ![1, 1, -1] * Vt := by
  ext i j
  rw [Matrix.diagonal_mul]
  fin_cases i <;> simp [Matrix.updateRow_apply]

lemma diagFlip_mul_self :
    (Matrix.diagonal ![1, 1, -1] : Matrix (Fin 3) (Fin 3) ℝ)
      * Matrix.diagonal ![1, 1, -1] = 1 := by
  rw [Matrix.diagonal_mul_diagonal]
  have h : (fun i => (![1, 1, -1] : Fin 3 → ℝ) i * ![1, 1, -1] i) = fun _ => 1 := by
    funext i; fin_cases i <;> norm_num
  rw [h, Matrix.diagonal_one]

lemma diagFlip_det :
    (Matrix.diagonal ![1, 1, -1] : Matrix (Fin 3) (Fin 3) ℝ).det = -1 := by
  rw [Matrix.det_diagonal, Fin.prod_univ_three]
  norm_num

lemma kabschRot_orthogonal (U Vt : Matrix (Fin 3) (Fin 3) ℝ)
    (hU : Uᵀ * U = 1) (hV : Vtᵀ * Vt = 1) :
    (kabschRot U Vt)ᵀ * kabschRot U Vt = 1 := by
  have hU2 : (Uᵀ)ᵀ * Uᵀ = 1 := by
    rw [Matrix.transpose_transpose]
    exact Matrix.mul_eq_one_comm.mp hU
  unfold kabschRot
  split
  · rw [updateRow_flip]
    have hDV : ((Matrix.diagonal ![1, 1, -1] * Vt)ᵀ)ᵀ
        * (Matrix.diagonal ![1, 1, -1] * Vt)ᵀ = 1 := by
      rw [Matrix.transpose_transpose, Matrix.transpose_mul, Matrix.diagonal_transpose,
        Matrix.mul_assoc, ← Matrix.mul_assoc Vt Vtᵀ _, Matrix.mul_eq_one_comm.mp hV,
        Matrix.one_mul, diagFlip_mul_self]
    exact orth_mul_orth hDV hU2
  · have hV2 : (Vtᵀ)ᵀ * Vtᵀ = 1 := by
      rw [Matrix.transpose_transpose]
      exact Matrix.mul_eq_one_comm.mp hV
    exact orth_mul_orth hV2 hU2

lemma kabschRot_det_one (U Vt : Matrix (Fin 3) (Fin 3) ℝ)
    (hU : Uᵀ * U = 1) (hV : Vtᵀ * Vt = 1) :
    (kabschRot U Vt).det = 1 := by
  have hdU := det_pm_of_orth hU
  have hdV := det_pm_of_orth hV
  unfold kabschRot
  split
  · rename_i hneg
    rw [updateRow_flip]
    simp only [Matrix.det_mul, Matrix.det_transpose, diagFlip_det] at hneg ⊢
    rcases hdU with h1 | h1 <;> rcases hdV with h2 | h2 <;>
      rw [h1, h2] at hneg ⊢ <;> norm_num at hneg ⊢
  · rename_i hneg
    simp only [Matrix.det_mul, Matrix.det_transpose] at hneg ⊢
    rcases hdU with h1 | h1 <;> rcases hdV with h2 | h2 <;>
      rw [h1, h2] at hneg ⊢ <;> norm_num at hneg ⊢

-- A 3×3 real orthogonal matrix with determinant -1 has trace at most 1.
-- (Its adjugate equals det • transpose; reading that identity on the diagonal and
-- combining with unit rows bounds trace² + 2·trace by 3.)
lemma trace_le_one_of_orth_det_neg {A : Matrix (Fin 3) (Fin 3) ℝ}
    (h : Aᵀ * A = 1) (hd : A.det = -1) : A.trace ≤ 1 := by
  have h2 : A * Aᵀ = 1 := Matrix.mul_eq_one_comm.mp h
  have hadj : A.adjugate = A.det • Aᵀ := by
    calc A.adjugate = 1 * A.adjugate := (Matrix.one_mul _).symm
      _ = (Aᵀ * A) * A.adjugate := by rw [h]
      _ = Aᵀ * (A * A.adjugate) := Matrix.mul_assoc _ _ _
      _ = Aᵀ * (A.det • 1) := by rw [Matrix.mul_adjugate]
      _ = A.det • (Aᵀ * 1) := by rw [Matrix.mul_smul]
      _ = A.det • Aᵀ := by rw [Matrix.mul_one]
  rw [Matrix.adjugate_fin_three] at hadj
  have hpt := Matrix.ext_iff.mpr hadj
  have e00 := hpt 0 0
  have e11 := hpt 1 1
  have e22 := hpt 2 2
  simp [hd, Matrix.transpose_apply] at e00 e11 e22
  have hrow := Matrix.ext_iff.mpr h2
  have r0 := hrow 0 0
  have r1 := hrow 1 1
  have r2 := hrow 2 2
  simp [Matrix.mul_apply, Fin.sum_univ_three, Matrix.transpose_apply,
    Matrix.one_apply] at r0 r1 r2
  rw [Matrix.trace_fin_three]
  nlinarith [sq_nonneg (A 0 1 - A 1 0), sq_nonneg (A 0 2 - A 2 0),
    sq_nonneg (A 1 2 - A 2 1), e00, e11, e22, r0, r1, r2]

-- ### Sum expansions for the RMSD inequality ###

lemma dotSelf_nonneg (v : Pt) : 0 ≤ v ⬝ᵥ v := by
  simp only [Matrix.dotProduct]
  exact Finset.sum_nonneg fun i _ => mul_self_nonneg (v i)

lemma sqSum_expand : ∀ (a b : List Pt), a.length = b.length →
    sqSum a b = sqNormSum a + sqNormSum b - 2 * pairDotSum a b := by
  intro a
  induction a with
  | nil =>
    intro b h
    cases b with
    | nil => simp [sqSum, sqNormSum, pairDotSum]
    | cons q bs => simp at h
  | cons p as ih =>
    intro b h
    cases b with
    | nil => simp at h
    | cons q bs =>
      have h' : as.length = bs.length := by simpa using h
      have hpq : (p - q) ⬝ᵥ (p - q) = p ⬝ᵥ p + q ⬝ᵥ q - 2 * (p ⬝ᵥ q) := by
        rw [Matrix.sub_dotProduct, Matrix.dotProduct_sub, Matrix.dotProduct_sub,
          Matrix.dotProduct_comm q p]
        ring
      simp only [sqSum, sqNormSum, pairDotSum, List.zipWith_cons_cons, List.map_cons,
        List.sum_cons] at *
      rw [ih bs h', hpq]
      ring

lemma trace_vecMulVec_mul (p q : Pt) (R : Matrix (Fin 3) (Fin 3) ℝ) :
    Matrix.trace (Matrix.vecMulVec p q * R) = (R *ᵥ p) ⬝ᵥ q := by
  simp only [Matrix.trace, Matrix.diag, Matrix.mul_apply, Matrix.vecMulVec_apply,
    Matrix.mulVec, Matrix.dotProduct, Finset.sum_mul]
  rw [Finset.sum_comm]
  refine Finset.sum_congr rfl fun i _ => Finset.sum_congr rfl fun j _ => by ring

lemma trace_vecMulVec (p q : Pt) :
    Matrix.trace (Matrix.vecMulVec p q) = p ⬝ᵥ q := by
  simp [Matrix.trace, Matrix.diag, Matrix.vecMulVec_apply, Matrix.dotProduct]

lemma pairDotSum_map_mulVec (R : Matrix (Fin 3) (Fin 3) ℝ) :
    ∀ (a b : List Pt),
      pairDotSum (a.map (fun p => R *ᵥ p)) b = Matrix.trace (crossCov a b * R) := by
  intro a
  induction a with
  | nil => intro b; simp [pairDotSum, crossCov]
  | cons p as ih =>
    intro b
    cases b with
    | nil => simp [pairDotSum, crossCov]
    | cons q bs =>
      simp only [pairDotSum, crossCov, List.map_cons, List.zipWith_cons_cons,
        List.sum_cons] at *
      rw [Matrix.add_mul, Matrix.trace_add, trace_vecMulVec_mul, ih bs]

lemma pairDotSum_eq_trace : ∀ (a b : List Pt),
    pairDotSum a b = Matrix.trace (crossCov a b) := by
  intro a
  induction a with
  | nil => intro b; simp [pairDotSum, crossCov]
  | cons p as ih =>
    intro b
    cases b with
    | nil => simp [pairDotSum, crossCov]
    | cons q bs =>
      simp only [pairDotSum, crossCov, List.zipWith_cons_cons, List.sum_cons] at *
      rw [Matrix.trace_add, trace_vecMulVec, ih bs]

lemma mulVec_dotProduct_self (R : Matrix (Fin 3) (Fin 3) ℝ) (h : Rᵀ * R = 1) (p : Pt) :
    (R *ᵥ p) ⬝ᵥ (R *ᵥ p) = p ⬝ᵥ p := by
  rw [Matrix.dotProduct_mulVec, Matrix.vecMul_mulVec, h, Matrix.vecMul_one]

lemma sqNormSum_map_mulVec (R : Matrix (Fin 3) (Fin 3) ℝ) (h : Rᵀ * R = 1)
    (a : List Pt) : sqNormSum (a.map (fun p => R *ᵥ p)) = sqNormSum a := by
  induction a with
  | nil => simp [sqNormSum]
  | cons p as ih =>
    simp only [sqNormSum, List.map_cons, List.sum_cons] at *
    rw [mulVec_dotProduct_self R h, ih]

lemma sqSum_map_add_both (d : Pt) : ∀ (x y : List Pt),
    sqSum (x.map (fun p => p + d)) (y.map (fun p => p + d)) = sqSum x y := by
  intro x
  induction x with
  | nil => intro y; simp [sqSum]
  | cons p xs ih =>
    intro y
    cases y with
    | nil => simp [sqSum]
    | cons q ys =>
      simp only [sqSum, List.map_cons, List.zipWith_cons_cons, List.sum_cons] at *
      rw [add_sub_add_right_eq_sub, ih ys]

lemma sqNormSum_map_add (d : Pt) (x : List Pt) :
    sqNormSum (x.map (fun p => p + d))
      = sqNormSum x + 2 * (x.sum ⬝ᵥ d) + x.length * (d ⬝ᵥ d) := by
  induction x with
  | nil => simp [sqNormSum]
  | cons p xs ih =>
    simp only [sqNormSum, List.map_cons, List.sum_cons, List.length_cons] at *
    rw [ih]
    have hpd : (p + d) ⬝ᵥ (p + d) = p ⬝ᵥ p + 2 * (p ⬝ᵥ d) + d ⬝ᵥ d := by
      rw [Matrix.add_dotProduct, Matrix.dotProduct_add, Matrix.dotProduct_add,
        Matrix.dotProduct_comm d p]
      ring
    have hsum : (p + xs.sum) ⬝ᵥ d = p ⬝ᵥ d + xs.sum ⬝ᵥ d := Matrix.add_dotProduct _ _ _
    rw [hpd, hsum]
    push_cast
    ring

lemma pairDotSum_map_add_left (d : Pt) : ∀ (x y : List Pt), x.length = y.length →
    pairDotSum (x.map (fun p => p + d)) y = pairDotSum x y + d ⬝ᵥ y.sum := by
  intro x
  induction x with
  | nil =>
    intro y h
    cases y with
    | nil => simp [pairDotSum]
    | cons q ys => simp at h
  | cons p xs ih =>
    intro y h
    cases y with
    | nil => simp at h
    | cons q ys =>
      have h' : xs.length = ys.length := by simpa using h
      simp only [pairDotSum, List.map_cons, List.zipWith_cons_cons, List.sum_cons] at *
      rw [ih ys h', Matrix.add_dotProduct, Matrix.dotProduct_add]
      ring

lemma sum_map_sub (xs : List Pt) (d : Pt) :
    (xs.map (fun p => p - d)).sum = xs.sum - xs.length • d := by
  induction xs with
  | nil => simp
  | cons p ps ih =>
    simp only [List.map_cons, List.sum_cons, List.length_cons, ih, succ_nsmul]
    abel

lemma sum_centered (xs : List Pt) :
    (xs.map (fun p => p - centroid xs)).sum = 0 := by
  rcases xs with _ | ⟨p, ps⟩
  · simp
  · rw [sum_map_sub]
    have hne : ((p :: ps).length : ℝ) ≠ 0 := by
      simp only [List.length_cons]
      exact_mod_cast Nat.succ_ne_zero ps.length
    rw [centroid, ← Nat.cast_smul_eq_nsmul ℝ, smul_smul, mul_inv_cancel₀ hne, one_smul,
      sub_self]

-- ### Trace identities for the SVD factors ###

lemma trace_UDVt (U Vt : Matrix (Fin 3) (Fin 3) ℝ) (S : Fin 3 → ℝ) :
    Matrix.trace (U * Matrix.diagonal S * Vt)
      = S 0 * (Vt * U) 0 0 + S 1 * (Vt * U) 1 1 + S 2 * (Vt * U) 2 2 := by
  simp only [Matrix.mul_assoc]
  rw [Matrix.trace_mul_comm]
  simp only [Matrix.mul_assoc]
  rw [Matrix.trace_mul_comm, Matrix.trace_fin_three]
  simp only [Matrix.mul_diagonal]
  ring

lemma trace_UDVt_mul_naive (U Vt : Matrix (Fin 3) (Fin 3) ℝ) (S : Fin 3 → ℝ)
    (hU : Uᵀ * U = 1) (hVV : Vt * Vtᵀ = 1) :
    Matrix.trace ((U * Matrix.diagonal S * Vt) * (Vtᵀ * Uᵀ)) = S 0 + S 1 + S 2 := by
  simp only [Matrix.mul_assoc]
  rw [← Matrix.mul_assoc Vt Vtᵀ Uᵀ, hVV, Matrix.one_mul, Matrix.trace_mul_comm]
  simp only [Matrix.mul_assoc]
  rw [hU, Matrix.mul_one, Matrix.trace_diagonal, Fin.sum_univ_three]

lemma trace_UDVt_mul_flip (U Vt : Matrix (Fin 3) (Fin 3) ℝ) (S : Fin 3 → ℝ)
    (hU : Uᵀ * U = 1) (hVV : Vt * Vtᵀ = 1) :
    Matrix.trace ((U * Matrix.diagonal S * Vt)
        * ((Matrix.diagonal ![1, 1, -1] * Vt)ᵀ * Uᵀ))
      = S 0 + S 1 - S 2 := by
  rw [Matrix.transpose_mul, Matrix.diagonal_transpose]
  simp only [Matrix.mul_assoc]
  rw [← Matrix.mul_assoc Vt Vtᵀ _, hVV, Matrix.one_mul, Matrix.trace_mul_comm]
  simp only [Matrix.mul_assoc]
  rw [hU, Matrix.mul_one, Matrix.diagonal_mul_diagonal, Matrix.trace_diagonal,
    Fin.sum_univ_three]
  have h0 : (![1, 1, -1] : Fin 3 → ℝ) 0 = 1 := rfl
  have h1 : (![1, 1, -1] : Fin 3 → ℝ) 1 = 1 := rfl
  have h2 : (![1, 1, -1] : Fin 3 → ℝ) 2 = -1 := rfl
  rw [h0, h1, h2]
  ring

-- Diagonal entries of an orthogonal matrix are at most 1 (unit rows).
lemma diag_le_one_of_orth {A : Matrix (Fin 3) (Fin 3) ℝ} (h : A * Aᵀ = 1) :
    A 0 0 ≤ 1 ∧ A 1 1 ≤ 1 ∧ A 2 2 ≤ 1 := by
  have r0 := Matrix.ext_iff.mpr h 0 0
  have r1 := Matrix.ext_iff.mpr h 1 1
  have r2 := Matrix.ext_iff.mpr h 2 2
  simp only [Matrix.mul_apply, Fin.sum_univ_three, Matrix.transpose_apply,
    Matrix.one_apply_eq] at r0 r1 r2
  refine ⟨?_, ?_, ?_⟩
  · nlinarith [sq_nonneg (A 0 1), sq_nonneg (A 0 2), sq_nonneg (A 0 0 - 1)]
  · nlinarith [sq_nonneg (A 1 0), sq_nonneg (A 1 2), sq_nonneg (A 1 1 - 1)]
  · nlinarith [sq_nonneg (A 2 0), sq_nonneg (A 2 1), sq_nonneg (A 2 2 - 1)]

-- The Kabsch rotation maximizes the alignment trace at least as well as the identity:
-- trace(H) ≤ trace(H · R) for H = U diag(S) Vt with descending non-negative S.
lemma trace_le_trace_mul_kabschRot (U Vt : Matrix (Fin 3) (Fin 3) ℝ) (S : Fin 3 → ℝ)
    (hU : Uᵀ * U = 1) (hV : Vtᵀ * Vt = 1)
    (hS2 : 0 ≤ S 2) (h21 : S 2 ≤ S 1) (h10 : S 1 ≤ S 0) :
    Matrix.trace (U * Matrix.diagonal S * Vt)
      ≤ Matrix.trace ((U * Matrix.diagonal S * Vt) * kabschRot U Vt) := by
  have hVV : Vt * Vtᵀ = 1 := Matrix.mul_eq_one_comm.mp hV
  have hMorth : (Vt * U)ᵀ * (Vt * U) = 1 := orth_mul_orth hV hU
  have hMrow : (Vt * U) * (Vt * U)ᵀ = 1 := Matrix.mul_eq_one_comm.mp hMorth
  obtain ⟨hb0, hb1, hb2⟩ := diag_le_one_of_orth hMrow
  rw [trace_UDVt]
  unfold kabschRot
  split
  · rename_i hneg
    have hdeq : (Vtᵀ * Uᵀ).det = (Vt * U).det := by
      rw [Matrix.det_mul, Matrix.det_transpose, Matrix.det_transpose, Matrix.det_mul]
    rw [hdeq] at hneg
    have hdet : (Vt * U).det = -1 := by
      rcases det_pm_of_orth hMorth with h | h
      · linarith
      · exact h
    have htr : (Vt * U).trace ≤ 1 := trace_le_one_of_orth_det_neg hMorth hdet
    rw [Matrix.trace_fin_three] at htr
    rw [updateRow_flip, trace_UDVt_mul_flip U Vt S hU hVV]
    have k1 : 0 ≤ (1 - (Vt * U) 0 0) * (S 0 - S 1) :=
      mul_nonneg (by linarith) (by linarith)
    have k2 : 0 ≤ (2 - (Vt * U) 0 0 - (Vt * U) 1 1) * (S 1 - S 2) :=
      mul_nonneg (by linarith) (by linarith)
    have k3 : 0 ≤ (1 - ((Vt * U) 0 0 + (Vt * U) 1 1 + (Vt * U) 2 2)) * S 2 :=
      mul_nonneg (by linarith) hS2
    nlinarith [k1, k2, k3]
  · rw [trace_UDVt_mul_naive U Vt S hU hVV]
    have k1 : 0 ≤ (1 - (Vt * U) 0 0) * S 0 := mul_nonneg (by linarith) (by linarith)
    have k2 : 0 ≤ (1 - (Vt * U) 1 1) * S 1 := mul_nonneg (by linarith) (by linarith)
    have k3 : 0 ≤ (1 - (Vt * U) 2 2) * S 2 := mul_nonneg (by linarith) hS2
    nlinarith [k1, k2, k3]

-- Centering both point sets can only lower the squared-distance sum.
lemma centered_sqSum_le_sqSum (a b : List Pt) (hlen : a.length = b.length) :
    sqSum (a.map (fun p => p - centroid a)) (b.map (fun p => p - centroid b))
      ≤ sqSum a b := by
  have hx : (a.map (fun p => p - centroid b)).map (fun p => p + centroid b) = a := by
    rw [List.map_map]
    have hfun : ((fun p : Pt => p + centroid b) ∘ fun p => p - centroid b) = id := by
      funext p
      simp
    rw [hfun, List.map_id]
  have hy : (b.map (fun p => p - centroid b)).map (fun p => p + centroid b) = b := by
    rw [List.map_map]
    have hfun : ((fun p : Pt => p + centroid b) ∘ fun p => p - centroid b) = id := by
      funext p
      simp
    rw [hfun, List.map_id]
  have h1 : sqSum a b
      = sqSum (a.map (fun p => p - centroid b)) (b.map (fun p => p - centroid b)) := by
    have h2 := sqSum_map_add_both (centroid b) (a.map (fun p => p - centroid b))
      (b.map (fun p => p - centroid b))
    rw [hx, hy] at h2
    exact h2
  have hmap1 : a.map (fun p => p - centroid b)
      = (a.map (fun p => p - centroid a)).map
          (fun p => p + (centroid a - centroid b)) := by
    rw [List.map_map]
    have hfun : (fun p : Pt => p - centroid b)
        = (fun p => p + (centroid a - centroid b)) ∘ fun p => p - centroid a := by
      funext p
      simp [Function.comp, sub_add_sub_cancel]
    rw [← hfun]
  rw [h1, hmap1]
  have hl1 : (a.map (fun p => p - centroid a)).length
      = (b.map (fun p => p - centroid b)).length := by
    simp [hlen]
  have hl2 : ((a.map (fun p => p - centroid a)).map
        (fun p => p + (centroid a - centroid b))).length
      = (b.map (fun p => p - centroid b)).length := by
    simp [hlen]
  rw [sqSum_expand _ _ hl1, sqSum_expand _ _ hl2, sqNormSum_map_add,
    pairDotSum_map_add_left _ _ _ (by simp [hlen]), sum_centered a, sum_centered b]
  simp only [Matrix.zero_dotProduct, Matrix.dotProduct_zero, mul_zero, add_zero]
  have hnn : 0 ≤ ((a.map (fun p => p - centroid a)).length : ℝ)
      * ((centroid a - centroid b) ⬝ᵥ (centroid a - centroid b)) :=
    mul_nonneg (by positivity) (dotSelf_nonneg _)
  linarith

-- Rotating the centered moving set by any orthogonal R whose alignment trace is at
-- least the identity's, then translating to the reference centroid, can only lower
-- the squared-distance sum.
lemma centered_rot_sqSum_le (a b : List Pt) (hlen : a.length = b.length)
    (R : Matrix (Fin 3) (Fin 3) ℝ) (hRorth : Rᵀ * R = 1)
    (htr : Matrix.trace (covH a b) ≤ Matrix.trace (covH a b * R)) :
    sqSum ((a.map (fun p => p - centroid a)).map (fun p => R *ᵥ p + centroid b)) b
      ≤ sqSum a b := by
  have hb : (b.map (fun p => p - centroid b)).map (fun p => p + centroid b) = b := by
    rw [List.map_map]
    have hfun : ((fun p : Pt => p + centroid b) ∘ fun p => p - centroid b) = id := by
      funext p
      simp
    rw [hfun, List.map_id]
  have hmap : (a.map (fun p => p - centroid a)).map (fun p => R *ᵥ p + centroid b)
      = ((a.map (fun p => p - centroid a)).map (fun p => R *ᵥ p)).map
          (fun p => p + centroid b) := by
    simp only [List.map_map]
    rfl
  have hstep1 : sqSum ((a.map (fun p => p - centroid a)).map
        (fun p => R *ᵥ p + centroid b)) b
      = sqSum ((a.map (fun p => p - centroid a)).map (fun p => R *ᵥ p))
          (b.map (fun p => p - centroid b)) := by
    have h2 := sqSum_map_add_both (centroid b)
      ((a.map (fun p => p - centroid a)).map (fun p => R *ᵥ p))
      (b.map (fun p => p - centroid b))
    rw [hb] at h2
    rw [hmap, h2]
  have hlrot : ((a.map (fun p => p - centroid a)).map (fun p => R *ᵥ p)).length
      = (b.map (fun p => p - centroid b)).length := by
    simp [hlen]
  have hlc : (a.map (fun p => p - centroid a)).length
      = (b.map (fun p => p - centroid b)).length := by
    simp [hlen]
  have hcov : crossCov (a.map (fun p => p - centroid a))
      (b.map (fun p => p - centroid b)) = covH a b := rfl
  have hstep2 : sqSum ((a.map (fun p => p - centroid a)).map (fun p => R *ᵥ p))
        (b.map (fun p => p - centroid b))
      ≤ sqSum (a.map (fun p => p - centroid a))
          (b.map (fun p => p - centroid b)) := by
    rw [sqSum_expand _ _ hlrot, sqSum_expand _ _ hlc,
      sqNormSum_map_mulVec R hRorth, pairDotSum_map_mulVec, pairDotSum_eq_trace, hcov]
    linarith
  calc sqSum ((a.map (fun p => p - centroid a)).map (fun p => R *ᵥ p + centroid b)) b
      = sqSum ((a.map (fun p => p - centroid a)).map (fun p => R *ᵥ p))
          (b.map (fun p => p - centroid b)) := hstep1
    _ ≤ sqSum (a.map (fun p => p - centroid a))
          (b.map (fun p => p - centroid b)) := hstep2
    _ ≤ sqSum a b := centered_sqSum_le_sqSum a b hlen

-- ### Claim theorems: alignment engine (C5, C6) ###

/-- C6: the rotation applied by `kabsch_align` is always a proper rotation: for any
orthogonal SVD factors U and Vt, the (possibly reflection-corrected) matrix
`kabschRot U Vt` is orthogonal with determinant exactly +1, so no reflection is ever
applied. -/
theorem claim_C6_proper_rotation (U Vt : Matrix (Fin 3) (Fin 3) ℝ)
    (hU : Uᵀ * U = 1) (hV : Vtᵀ * Vt = 1) :
    (kabschRot U Vt).det = 1 ∧ (kabschRot U Vt)ᵀ * kabschRot U Vt = 1 :=
  ⟨kabschRot_det_one U Vt hU hV, kabschRot_orthogonal U Vt hU hV⟩

/-- C6 witness: with identity SVD factors the Kabsch rotation is the identity, a proper
rotation. -/
theorem claim_C6_witness :
    (kabschRot 1 1).det = 1 ∧ (kabschRot 1 1)ᵀ * kabschRot 1 1 = 1 :=
  claim_C6_proper_rotation 1 1 (by simp) (by simp)

/-- C5: for equal-length coordinate arrays, when the SVD oracle returns a valid
singular value decomposition of the covariance matrix (orthogonal factors,
non-negative singular values in descending order — what numpy guarantees), the RMSD
returned as `kabsch_align`'s second result is at most `rmsd(moving, reference)`, the
unaligned RMSD of the same pair.  (On empty arrays `kabsch_align` raises instead of
returning, so the claim concerns non-empty input.) -/
theorem claim_C5_alignment_improves (svd : Matrix (Fin 3) (Fin 3) ℝ → Svd3)
    (a b : List Pt) (hlen : a.length = b.length) (hne : a.length ≠ 0)
    (hsvd : IsSvd3 (covH a b) (svd (covH a b))) :
    ∃ pts r₁ r₂,
      kabsch_align svd a b = .ok (pts, r₁) ∧
      calculate_rmsd a b = .ok r₂ ∧ r₁ ≤ r₂ := by
  obtain ⟨hU, hV, hH, hS2, h21, h10⟩ := hsvd
  have hRorth := kabschRot_orthogonal _ _ hU hV
  have htr0 : Matrix.trace (covH a b)
      ≤ Matrix.trace (covH a b
          * kabschRot (svd (covH a b)).U (svd (covH a b)).Vt) := by
    have h2 := trace_le_trace_mul_kabschRot (svd (covH a b)).U (svd (covH a b)).Vt
      (svd (covH a b)).S hU hV hS2 h21 h10
    rw [← hH] at h2
    exact h2
  have halig : alignedCoords svd a b
      = (a.map (fun p => p - centroid a)).map
          (fun p => kabschRot (svd (covH a b)).U (svd (covH a b)).Vt *ᵥ p
            + centroid b) := rfl
  have hsq : sqSum (alignedCoords svd a b) b ≤ sqSum a b := by
    rw [halig]
    exact centered_rot_sqSum_le a b hlen _ hRorth htr0
  refine ⟨alignedCoords svd a b, rmsdVal (alignedCoords svd a b) b, rmsdVal a b,
    kabsch_align_ok svd a b hlen hne, calculate_rmsd_ok a b hlen, ?_⟩
  unfold rmsdVal
  have hlen2 : (alignedCoords svd a b).length = a.length := by
    rw [halig]
    simp
  rw [hlen2]
  apply Real.sqrt_le_sqrt
  rcases Nat.eq_zero_or_pos a.length with h0 | hpos
  · rw [h0]
    simp
  · have hpos' : (0 : ℝ) < a.length := by exact_mod_cast hpos
    exact (div_le_div_iff_of_pos_right hpos').mpr hsq

-- On the concrete fixture the covariance matrix is diag(2, 0, 0), so the trivial
-- oracle (U = 1, S = (2,0,0), Vt = 1) is a valid SVD there.
lemma covH_ptsW : covH ptsW ptsW = Matrix.diagonal ![2, 0, 0] := by
  have hc : centroid ptsW = 0 := by
    funext i
    simp only [centroid, ptsW, List.sum_cons, List.sum_nil, List.length_cons,
      List.length_nil, Pi.smul_apply, Pi.add_apply, Pi.zero_apply, smul_eq_mul]
    fin_cases i <;> simp [ptX, ptNegX]
  have hmap : ptsW.map (fun p => p - centroid ptsW) = ptsW := by
    rw [hc]
    simp
  unfold covH
  rw [hmap]
  ext i j
  simp only [crossCov, ptsW, List.zipWith_cons_cons, List.zipWith_nil_right,
    List.zipWith_nil_left, List.sum_cons, List.sum_nil, add_zero, Matrix.add_apply,
    Matrix.vecMulVec_apply]
  fin_cases i <;> fin_cases j <;>
    (simp [ptX, ptNegX, Matrix.diagonal_apply]; try norm_num)

lemma svdTriv_valid : IsSvd3 (covH ptsW ptsW) (svdTriv (covH ptsW ptsW)) := by
  refine ⟨by simp [svdTriv], by simp [svdTriv], ?_, ?_, ?_, ?_⟩
  · rw [covH_ptsW]
    simp [svdTriv]
  · norm_num [svdTriv]
  · norm_num [svdTriv]
  · norm_num [svdTriv]

/-- C5 witness: on a concrete 2-point pair with a concrete valid SVD of its covariance
matrix, alignment does not increase the RMSD. -/
theorem claim_C5_witness :
    ∃ pts r₁ r₂,
      kabsch_align svdTriv ptsW ptsW = .ok (pts, r₁) ∧
      calculate_rmsd ptsW ptsW = .ok r₂ ∧ r₁ ≤ r₂ :=
  claim_C5_alignment_improves svdTriv ptsW ptsW rfl (by decide) svdTriv_valid

-- ### Claim theorems: scoring policy (C2, C3, C4, C10) ###

/-- C2 (amended): for every reference complex whose total reference point count
`n_target + n_binder` is different from 2, `score_complex` on a predicted coordinate
array of exactly 2 points returns all six metrics equal to `-1.0`.  (When the
reference itself has exactly 2 points the exact-length branch runs instead and the
complex-level metrics are computed, see the counterexample.) -/
theorem claim_C2_two_points (svd : Matrix (Fin 3) (Fin 3) ℝ → Svd3)
    (pred : List Pt) (ref : ComplexInfo)
    (hlen : pred.length = 2)
    (href : ref.target_coords.length + ref.binder_coords.length ≠ 2) :
    calculate_complex_rmsd svd pred ref = .ok allNegMetrics :=
  calculate_complex_rmsd_mismatch_small svd pred ref (by omega) (by omega)

/-- C2 witness: a 2-point prediction against a 1-point reference complex yields all six
sentinels. -/
theorem claim_C2_witness :
    calculate_complex_rmsd svdTriv [0, 0] refB = .ok allNegMetrics :=
  claim_C2_two_points svdTriv [0, 0] refB (by decide) (by decide)

/-- C2 counterexample: against a reference complex with exactly 2 points (one target
point, one binder point — produced by `parse_complex` on a concrete structure), a
2-point prediction takes the exact-length branch and the complex RMSD is computed
(here 0), not the sentinel `-1.0`; so the claim is false as universally stated. -/
theorem claim_C2_counterexample :
    parse_complex structA "ref.pdb" "A" "B" = .ok refA ∧
    refA.complex_coords.length = 2 ∧
    (∃ m, calculate_complex_rmsd svdTriv refA.complex_coords refA = .ok m ∧
      m.complex_rmsd = 0 ∧ m ≠ allNegMetrics) := by
  refine ⟨by rfl, by rfl, ?_⟩
  have h := calculate_complex_rmsd_full svdTriv refA.complex_coords refA
    (by decide) (by decide) (by decide)
  rw [if_neg (by decide), if_neg (by decide)] at h
  refine ⟨_, h, ?_, ?_⟩
  · show rmsdVal refA.complex_coords refA.complex_coords = 0
    have hs : sqSum refA.complex_coords refA.complex_coords = 0 := by
      simp [sqSum, refA, sub_self]
    simp [rmsdVal, hs]
  · intro hcontra
    have h0 : rmsdVal refA.complex_coords refA.complex_coords = -1 := by
      have := congrArg RmsdMetrics.complex_rmsd hcontra
      simpa [allNegMetrics] using this
    have hs : sqSum refA.complex_coords refA.complex_coords = 0 := by
      simp [sqSum, refA, sub_self]
    rw [rmsdVal, hs] at h0
    norm_num at h0

/-- C3 (amended): for every predicted coordinate array and every well-formed
reference complex, `score_complex` returns a six-metric record without propagating
an error — length mismatches and point counts below 3 become `-1.0` sentinels and
the length-mismatch error of the `rmsd`/`kabsch_align` primitives is never
reached — EXCEPT in the doubly-degenerate case where both the predicted array and
the reference complex are empty: there the exact-length branch hands two empty
arrays to `kabsch_align`, whose SVD of the 0-dimensional covariance raises, and
`score_complex` does throw. -/
theorem claim_C3_never_throws (svd : Matrix (Fin 3) (Fin 3) ℝ → Svd3)
    (pred : List Pt) (ref : ComplexInfo)
    (hwf : ref.complex_coords.length
      = ref.target_coords.length + ref.binder_coords.length) :
    (¬(pred.length = 0
        ∧ ref.target_coords.length + ref.binder_coords.length = 0) →
      ∃ m, calculate_complex_rmsd svd pred ref = .ok m) ∧
    ((pred.length = 0
        ∧ ref.target_coords.length + ref.binder_coords.length = 0) →
      calculate_complex_rmsd svd pred ref = .error linAlgErrorMsg) := by
  constructor
  · intro hne
    by_cases hmis : pred.length = ref.target_coords.length + ref.binder_coords.length
    · refine ⟨_, calculate_complex_rmsd_full svd pred ref hmis hwf (by omega)⟩
    · by_cases hsmall : min pred.length ref.complex_coords.length < 3
      · exact ⟨_, calculate_complex_rmsd_mismatch_small svd pred ref hmis hsmall⟩
      · exact ⟨_, calculate_complex_rmsd_mismatch_big svd pred ref hmis (by omega)⟩
  · intro ⟨h0, hnb⟩
    exact calculate_complex_rmsd_empty_error svd pred ref h0 (by omega) hnb

/-- C3 counterexample: against an empty reference complex (produced by
`parse_complex` on a structure whose chains yield no alpha-carbon coordinates), an
empty predicted array makes `score_complex` propagate the SVD error instead of
returning sentinels — so the original never-throws claim is false as universally
stated. -/
theorem claim_C3_counterexample :
    parse_complex structEmpty "ref.pdb" "A" "B" = .ok refEmpty ∧
    refEmpty.complex_coords.length
      = refEmpty.target_coords.length + refEmpty.binder_coords.length ∧
    calculate_complex_rmsd svdTriv [] refEmpty = .error linAlgErrorMsg :=
  ⟨rfl, rfl,
    calculate_complex_rmsd_empty_error svdTriv [] refEmpty rfl rfl rfl⟩

/-- C3 witness: a concrete well-formed non-degenerate reference complex and an
arbitrary prediction produce a result record. -/
theorem claim_C3_witness :
    ∃ m, calculate_complex_rmsd svdTriv [0] refA = .ok m :=
  (claim_C3_never_throws svdTriv [0] refA (by decide)).1 (by decide)

/-- C4: in every length-mismatch case, `score_complex` truncates both the predicted and
the reference full-complex arrays to `min(len(predicted), len(reference_complex))`
points and computes the complex unaligned/aligned RMSD on those truncated arrays; the
four target-only and binder-only metrics are `-1.0`, and if the truncated length is
below 3 all six metrics are `-1.0`. -/
theorem claim_C4_mismatch_truncation (svd : Matrix (Fin 3) (Fin 3) ℝ → Svd3)
    (pred : List Pt) (ref : ComplexInfo)
    (hmis : pred.length ≠ ref.target_coords.length + ref.binder_coords.length) :
    (min pred.length ref.complex_coords.length < 3 →
      calculate_complex_rmsd svd pred ref = .ok allNegMetrics) ∧
    (3 ≤ min pred.length ref.complex_coords.length →
      calculate_complex_rmsd svd pred ref = .ok
        ⟨rmsdVal (pred.take (min pred.length ref.complex_coords.length))
            (ref.complex_coords.take (min pred.length ref.complex_coords.length)),
          rmsdVal
            (alignedCoords svd
              (pred.take (min pred.length ref.complex_coords.length))
              (ref.complex_coords.take (min pred.length ref.complex_coords.length)))
            (ref.complex_coords.take (min pred.length ref.complex_coords.length)),
          -1, -1, -1, -1⟩) :=
  ⟨calculate_complex_rmsd_mismatch_small svd pred ref hmis,
    calculate_complex_rmsd_mismatch_big svd pred ref hmis⟩

/-- C4 witness: an empty prediction against a 2-point reference is a mismatch with
truncated length 0 < 3, and all six metrics are sentinels. -/
theorem claim_C4_witness :
    calculate_complex_rmsd svdTriv [] refA = .ok allNegMetrics :=
  (claim_C4_mismatch_truncation svdTriv [] refA (by decide)).1 (by decide)

/-- C10: the values returned by `rmsd` and by `kabsch_align`'s second result are
non-negative, and consequently every component of the record returned by
`score_complex` (on a well-formed reference complex, outside the doubly-empty case
in which no record is returned at all, see C3) is either a non-negative number or
exactly the sentinel `-1.0`. -/
theorem claim_C10_metrics_nonneg_or_sentinel (svd : Matrix (Fin 3) (Fin 3) ℝ → Svd3)
    (a b pred : List Pt) (ref : ComplexInfo)
    (hwf : ref.complex_coords.length
      = ref.target_coords.length + ref.binder_coords.length)
    (hne : ¬(pred.length = 0
      ∧ ref.target_coords.length + ref.binder_coords.length = 0)) :
    (∀ r, calculate_rmsd a b = .ok r → 0 ≤ r) ∧
    (∀ pts r, kabsch_align svd a b = .ok (pts, r) → 0 ≤ r) ∧
    (∃ m, calculate_complex_rmsd svd pred ref = .ok m ∧
      (0 ≤ m.complex_rmsd ∨ m.complex_rmsd = -1) ∧
      (0 ≤ m.complex_rmsd_aligned ∨ m.complex_rmsd_aligned = -1) ∧
      (0 ≤ m.target_rmsd ∨ m.target_rmsd = -1) ∧
      (0 ≤ m.target_rmsd_aligned ∨ m.target_rmsd_aligned = -1) ∧
      (0 ≤ m.binder_rmsd ∨ m.binder_rmsd = -1) ∧
      (0 ≤ m.binder_rmsd_aligned ∨ m.binder_rmsd_aligned = -1)) := by
  have hnn : ∀ x y : List Pt, 0 ≤ rmsdVal x y := fun x y => Real.sqrt_nonneg _
  refine ⟨?_, ?_, ?_⟩
  · intro r hr
    by_cases h : a.length = b.length
    · rw [calculate_rmsd_ok a b h] at hr
      cases hr
      exact hnn a b
    · simp [calculate_rmsd, h] at hr
  · intro pts r hr
    by_cases h : a.length = b.length
    · by_cases h0 : a.length = 0
      · rw [kabsch_align_empty svd a b h0 (by omega)] at hr
        exact Except.noConfusion hr
      · rw [kabsch_align_ok svd a b h h0] at hr
        cases hr
        exact hnn _ b
    · unfold kabsch_align at hr
      rw [if_pos h] at hr
      exact Except.noConfusion hr
  · by_cases hmis : pred.length = ref.target_coords.length + ref.binder_coords.length
    · refine ⟨_, calculate_complex_rmsd_full svd pred ref hmis hwf (by omega),
        ?_, ?_, ?_, ?_, ?_, ?_⟩
      · exact Or.inl (hnn _ _)
      · exact Or.inl (hnn _ _)
      · dsimp only
        split
        · exact Or.inl (hnn _ _)
        · exact Or.inr rfl
      · dsimp only
        split
        · exact Or.inl (hnn _ _)
        · exact Or.inr rfl
      · dsimp only
        split
        · exact Or.inl (hnn _ _)
        · exact Or.inr rfl
      · dsimp only
        split
        · exact Or.inl (hnn _ _)
        · exact Or.inr rfl
    · by_cases hsmall : min pred.length ref.complex_coords.length < 3
      · exact ⟨_, calculate_complex_rmsd_mismatch_small svd pred ref hmis hsmall,
          Or.inr rfl, Or.inr rfl, Or.inr rfl, Or.inr rfl, Or.inr rfl, Or.inr rfl⟩
      · exact ⟨_, calculate_complex_rmsd_mismatch_big svd pred ref hmis (by omega),
          Or.inl (hnn _ _), Or.inl (hnn _ _),
          Or.inr rfl, Or.inr rfl, Or.inr rfl, Or.inr rfl⟩

/-- C10 witness: instantiated at concrete inputs. -/
theorem claim_C10_witness :
    (∀ r, calculate_rmsd [] [] = .ok r → 0 ≤ r) ∧
    (∀ pts r, kabsch_align svdTriv [] [] = .ok (pts, r) → 0 ≤ r) ∧
    (∃ m, calculate_complex_rmsd svdTriv [0] refA = .ok m ∧
      (0 ≤ m.complex_rmsd ∨ m.complex_rmsd = -1) ∧
      (0 ≤ m.complex_rmsd_aligned ∨ m.complex_rmsd_aligned = -1) ∧
      (0 ≤ m.target_rmsd ∨ m.target_rmsd = -1) ∧
      (0 ≤ m.target_rmsd_aligned ∨ m.target_rmsd_aligned = -1) ∧
      (0 ≤ m.binder_rmsd ∨ m.binder_rmsd = -1) ∧
      (0 ≤ m.binder_rmsd_aligned ∨ m.binder_rmsd_aligned = -1)) :=
  claim_C10_metrics_nonneg_or_sentinel svdTriv [] [] [0] refA (by decide) (by decide)

/-- C7: `calculate_rmsd` and `kabsch_align` fail with the length-mismatch error
exactly when the two coordinate arrays have different lengths; on equal-length
inputs neither primitive raises THIS error (the distinct LinAlgError of the
degenerate empty case is a different error, raised by numpy, not by the length
precondition). -/
theorem claim_C7_length_mismatch (svd : Matrix (Fin 3) (Fin 3) ℝ → Svd3)
    (a b : List Pt) :
    ((calculate_rmsd a b = .error lengthMismatchMsg) ↔ a.length ≠ b.length) ∧
    ((kabsch_align svd a b = .error lengthMismatchMsg) ↔ a.length ≠ b.length) := by
  constructor
  · constructor
    · intro he
      by_contra hlen
      unfold calculate_rmsd at he
      rw [if_neg (by omega)] at he
      exact Except.noConfusion he
    · intro hlen
      unfold calculate_rmsd
      rw [if_pos hlen]
  · constructor
    · intro he
      by_contra hlen
      unfold kabsch_align at he
      rw [if_neg (by omega)] at he
      by_cases h0 : a.length = 0
      · rw [if_pos h0] at he
        simp only [Except.error.injEq] at he
        exact absurd he (by decide)
      · rw [if_neg h0] at he
        exact Except.noConfusion he
    · intro hlen
      unfold kabsch_align
      rw [if_pos hlen]

/-- C8: coordinate extraction fails with the chain-not-found error exactly when the
requested chain id is absent from the first structural model, and returns normally
exactly when it is present. -/
theorem claim_C8_chain_not_found (s : List (List Chain)) (chain_id : String) :
    ((∃ e, extractChainInfo s chain_id = .error e) ↔ chainPresent s chain_id = false) ∧
    ((∃ out, extractChainInfo s chain_id = .ok out) ↔ chainPresent s chain_id = true) := by
  cases s with
  | nil => simp [extractChainInfo, chainPresent]
  | cons m rest =>
    cases hf : m.find? (fun c => c.id == chain_id) with
    | none =>
      have hany : m.any (fun c => c.id == chain_id) = false := by
        rw [List.any_eq_false]
        intro c hc
        have := List.find?_eq_none.mp hf c hc
        simpa using this
      simp [extractChainInfo, chainPresent, hf, hany]
    | some c =>
      have hp := List.find?_some hf
      have hmem := List.mem_of_find?_eq_some hf
      have hany : m.any (fun c => c.id == chain_id) = true :=
        List.any_eq_true.mpr ⟨c, hmem, hp⟩
      simp [extractChainInfo, chainPresent, hf, hany]

/-- C9: whenever `parse_complex` succeeds, the `complex_coords` field of the resulting
`ComplexInfo` is the concatenation of its `target_coords` followed by its
`binder_coords` (concatenation over the caller-specified order [target, binder]). -/
theorem claim_C9_complex_concat (s : List (List Chain)) (path target_chain binder_chain : String)
    (ci : ComplexInfo)
    (h : parse_complex s path target_chain binder_chain = .ok ci) :
    ci.complex_coords = ci.target_coords ++ ci.binder_coords := by
  unfold parse_complex at h
  cases ht : extractChainInfo s target_chain with
  | error e => rw [ht] at h; simp [Bind.bind, Except.bind] at h
  | ok tinfo =>
    cases hb : extractChainInfo s binder_chain with
    | error e => rw [ht, hb] at h; simp [Bind.bind, Except.bind] at h
    | ok binfo =>
      rw [ht, hb] at h
      simp only [Bind.bind, Except.bind, getComplexCoords, ht, hb] at h
      simp only [Pure.pure, Except.pure, Except.ok.injEq] at h
      rw [← h]
      simp

/-- C9 witness: on a concrete two-chain structure, `parse_complex` succeeds and its
complex coordinates are the target coordinates followed by the binder coordinates. -/
theorem claim_C9_witness :
    refA.complex_coords = refA.target_coords ++ refA.binder_coords :=
  claim_C9_complex_concat structA "ref.pdb" "A" "B" refA (by rfl)

end StructureUtils

end
